import Mathlib

/-!
A verification development for the vibot-mobile memory-capture application.

The development shallowly embeds the two core subsystems:

* the memory classifier (`src/services/ai.ts` `analyzeMemory` together with the
  classification portion of `saveAsMemory` and `extractBasicTags` from the talk
  screen), and
* the surprise engine (`src/services/surprises.ts`: `generateSurprises` and its
  eight generators).

Modelling conventions:

* JavaScript strings are Lean `String`s; `substring(0, n)` is `jsSubstring`,
  `toLowerCase()` is `lowerStr` (ASCII case folding, which is all the source
  relies on), and the falsy-`""` behaviour of `x || alt` is `jsOr`.
* A JavaScript `Date` is a `JDate`: its millisecond timestamp (`getTime`)
  plus the calendar fields `getDate`/`getMonth` that the engine consults.
  `Memory.createdAt` is stored in the source as an ISO string and re-parsed on
  use; the embedding stores the parsed `JDate` directly.
* `Array.prototype.sort` with a key comparator is a stable sort producing a
  permutation; it is embedded as `List.insertionSort`, which is stable with
  the same tie-breaking (earlier elements stay first).
* Every use of `Math.random()` is an oracle value supplied by the caller:
  random array indexing becomes `jsPick k l` for an arbitrary `k : Nat`, and
  the generator shuffle becomes an arbitrary function that theorems constrain
  to produce permutations (which is all a comparator-based shuffle can do).
* The language-model gateway (`AIService`) is embedded by its observable
  behaviour in one call: a `configured` flag, the outcome of `chat` as
  `Except String String` (`.error` = thrown rejection), and the outcome of
  `JSON.parse` on a response as an oracle `String → Option Analysis`
  (`none` = parse threw; a parsed value is assumed well-shaped).
* Generators that may throw return `Except String (Option Surprise)`; the
  orchestrator's `try/catch` is the `.error` branch of `runGens`.
-/

/-- JS `s.substring(0, n)` (first `n` code units; ASCII here). -/
def jsSubstring (s : String) (n : Nat) : String :=
  String.mk (s.data.take n)

/-- JS `s.length`. -/
def jsLen (s : String) : Nat :=
  s.data.length

/-- ASCII lowering of one character, as performed by JS `toLowerCase` on the
source's ASCII data. -/
def lowerChar (c : Char) : Char :=
  if 65 ≤ c.toNat ∧ c.toNat ≤ 90 then Char.ofNat (c.toNat + 32) else c

/-- JS `s.toLowerCase()` (ASCII). -/
def lowerStr (s : String) : String :=
  String.mk (s.data.map lowerChar)

/-- JS `x || alt` on an optional string: `undefined` and `""` are falsy. -/
def jsOr (x : Option String) (alt : String) : String :=
  match x with
  | some s => if s = "" then alt else s
  | none => alt

/-- JS `arr[Math.floor(Math.random() * arr.length)]`: the random draw is the
oracle `k`, reduced mod the length. The default is only consulted for `[]`
(where the source never indexes). -/
def jsPick (k : Nat) (l : List α) (d : α) : α :=
  l.getD (k % l.length) d

/-- `pickRandom` of `surprises.ts`: `undefined` on an empty array, otherwise
a random element. -/
def pickRandom (k : Nat) : List α → Option α
  | [] => none
  | x :: xs => some (jsPick k (x :: xs) x)

/-- JS `Math.round(a / b)` for natural `a` and positive `b` (round half up). -/
def jsRoundDiv (a b : Nat) : Nat :=
  (2 * a + b) / (2 * b)

/-- `l₁` occurs as a contiguous prefix of `l₂`. -/
def isPrefixL : List Char → List Char → Bool
  | [], _ => true
  | _ :: _, [] => false
  | n :: ns, h :: hs => n = h && isPrefixL ns hs

/-- `l₁` occurs as a contiguous sublist of `l₂`. -/
def isSubL : List Char → List Char → Bool
  | ns, [] => ns.isEmpty
  | ns, h :: hs => isPrefixL ns (h :: hs) || isSubL ns hs

/-- JS `s.includes(t)`. -/
def jsIncludes (s t : String) : Bool :=
  isSubL t.data s.data

/-- One bump of a JS `Map<string, number>` used as a counter:
`map.set(k, (map.get(k) || 0) + 1)`. The association list keeps first-insertion
order, as a JS `Map` does. -/
def bumpCount : List (String × Nat) → String → List (String × Nat)
  | [], tag => [(tag, 1)]
  | (t, c) :: rest, tag =>
    if t = tag then (t, c + 1) :: rest else (t, c) :: bumpCount rest tag

/-- First-occurrence deduplication, as JS `Set` insertion order and
`arr.filter((v, i, a) => a.indexOf(v) === i)` both produce. -/
def distinctFirst (l : List String) : List String :=
  l.foldl (fun acc t => if acc.contains t then acc else acc ++ [t]) []

/-- Whitespace class of the `/\s+/` tokenizer split. -/
def isWs (c : Char) : Bool :=
  c = ' ' || c = '\t' || c = '\n' || c = '\r'

/-- Helper for `splitWs`: accumulates the current token (reversed). -/
def splitWsAux : List Char → List Char → List String
  | [], cur => if cur.isEmpty then [] else [String.mk cur.reverse]
  | c :: rest, cur =>
    if isWs c then
      if cur.isEmpty then splitWsAux rest []
      else String.mk cur.reverse :: splitWsAux rest []
    else splitWsAux rest (c :: cur)

/-- JS `text.split(/\s+/)`, dropping the empty boundary tokens JS can emit
(they are discarded by the classifier's length filter anyway). -/
def splitWs (s : String) : List String :=
  splitWsAux s.data []

/-- JS `w.replace(/[^a-z]/g, '')`. -/
def cleanWord (w : String) : String :=
  String.mk (w.data.filter (fun c => 97 ≤ c.toNat ∧ c.toNat ≤ 122))

/-- The fixed stop-word set of `extractBasicTags` (`TalkScreen`). -/
def stopWords : List String :=
  ["the", "a", "an", "is", "are", "was", "were", "be", "been", "being",
   "have", "has", "had", "do", "does", "did", "will", "would", "could",
   "should", "may", "might", "can", "shall", "to", "of", "in", "for", "on",
   "with", "at", "by", "from", "it", "this", "that", "i", "me", "my", "we",
   "our", "you", "your", "he", "she", "they", "them", "and", "or", "but",
   "not", "so", "if", "about", "just", "also", "then", "than", "very",
   "really", "think", "like", "want", "know"]

/-- `extractBasicTags` (`TalkScreen`): lowercase, tokenize, strip non-letters,
drop stop words and tokens of length ≤ 3, count with a `Map`, sort entries by
count descending (stable), keep the top 4, return the words. -/
def extractBasicTags (text : String) : List String :=
  let words := splitWs (lowerStr text)
  let wordCounts := words.foldl
    (fun acc w =>
      let clean := cleanWord w
      if 3 < jsLen clean ∧ ¬ stopWords.contains clean then bumpCount acc clean
      else acc)
    []
  ((List.insertionSort (fun a b : String × Nat => b.2 ≤ a.2) wordCounts).take 4).map
    Prod.fst

/-- The shape `analyzeMemory` expects from a successfully parsed gateway
response. -/
structure Analysis where
  tags : List String
  summary : String
  suggestedRoom : Option String
deriving DecidableEq

/-- `AIService.analyzeMemory`: throws when `chat` throws (in particular when
the gateway is not configured); on a response, `JSON.parse` failure is caught
and downgraded to empty tags plus a truncated-content summary. -/
def analyzeMemory (configured : Bool) (chat : Except String String)
    (parse : String → Option Analysis) (content : String) :
    Except String Analysis :=
  if configured then
    match chat with
    | .error e => .error e
    | .ok response =>
      match parse response with
      | some a => .ok a
      | none =>
        .ok ⟨[], jsSubstring content 100 ++
          (if 100 < jsLen content then "..." else ""), none⟩
  else .error "Anthropic API key not configured"

/-- The classification outcome `saveAsMemory` stores on the new `Memory`. -/
structure ClassifyResult where
  tags : List String
  summary : Option String
  suggestedRoom : Option String
deriving DecidableEq

/-- The classification portion of `saveAsMemory` (`TalkScreen`): AI analysis
when the gateway is configured, catching any thrown error into the heuristic
tagger; the heuristic tagger directly when not configured. -/
def classify (configured : Bool) (chat : Except String String)
    (parse : String → Option Analysis) (content : String) : ClassifyResult :=
  if configured then
    match analyzeMemory configured chat parse content with
    | .ok a => ⟨a.tags, some a.summary, a.suggestedRoom⟩
    | .error _ => ⟨extractBasicTags content, none, none⟩
  else ⟨extractBasicTags content, none, none⟩

/-- A JS `Date` as the engine observes it: `getTime()` in milliseconds plus
the calendar fields `getDate()` and `getMonth()`. -/
structure JDate where
  time : Int
  day : Nat
  month : Nat
deriving DecidableEq

/-- A `Date` built from a raw millisecond timestamp (`new Date(ms)`); only its
`getTime()` is ever consulted by the engine, so the calendar fields are left
at 0. -/
def msDate (t : Int) : JDate :=
  ⟨t, 0, 0⟩

/-- `daysBetween` (`surprises.ts`):
`Math.floor(Math.abs(d1.getTime() - d2.getTime()) / 86400000)`. -/
def daysBetween (d1 d2 : JDate) : Nat :=
  (d1.time - d2.time).natAbs / 86400000

/-- `sameDay` (`surprises.ts`): equal `getDate()` and `getMonth()`. -/
def sameDay (d1 d2 : JDate) : Bool :=
  d1.day == d2.day && d1.month == d2.month

/-- `Memory.type` from `types/index.ts`. -/
inductive MemoryType
  | voice
  | text
  | conversation
deriving DecidableEq

/-- `Memory` from `types/index.ts`. `createdAt` is stored in the source as an
ISO string and re-parsed with `new Date` on each use; the embedding stores the
parsed `JDate`. The optional `audioUri`/`embedding` fields are never read by
the modelled operations and are omitted (`embedding` is a floating-point
vector). -/
structure Memory where
  id : String
  content : String
  summary : Option String
  type : MemoryType
  tags : List String
  connections : List String
  roomId : Option String
  createdAt : JDate
  updatedAt : String
  userId : String
deriving DecidableEq

/-- `Room` from `types/index.ts`. -/
structure Room where
  id : String
  name : String
  icon : String
  color : String
  memoryCount : Nat
  lastVisited : Option String
  userId : String
  createdAt : String
deriving DecidableEq

/-- `SurpriseType` (`surprises.ts`): the fixed eight-kind enumeration. -/
inductive SurpriseType
  | on_this_day
  | connection
  | idea_spark
  | forgotten_gem
  | pattern
  | nudge
  | mashup
  | question
deriving DecidableEq

/-- `Surprise` (`surprises.ts`). -/
structure Surprise where
  id : String
  type : SurpriseType
  title : String
  content : String
  relatedMemoryIds : List String
  icon : String
  gradient : String × String
  createdAt : String
deriving DecidableEq

/-- `SURPRISE_STYLES` (`surprises.ts`): icon and gradient per kind. -/
def SURPRISE_STYLES : SurpriseType → String × (String × String)
  | .on_this_day => ("calendar", ("#6C3CE1", "#8B5CF6"))
  | .connection => ("git-merge", ("#3B82F6", "#06B6D4"))
  | .idea_spark => ("flash", ("#F59E0B", "#EF4444"))
  | .forgotten_gem => ("diamond", ("#EC4899", "#8B5CF6"))
  | .pattern => ("analytics", ("#10B981", "#3B82F6"))
  | .nudge => ("hand-left", ("#F59E0B", "#10B981"))
  | .mashup => ("shuffle", ("#EF4444", "#6C3CE1"))
  | .question => ("help-circle", ("#06B6D4", "#3B82F6"))

/-- The per-call environment of `makeSurprise`: the `generateId()` result and
the `new Date().toISOString()` timestamp. -/
structure MkCtx where
  gid : String
  nowIso : String
deriving DecidableEq

/-- `makeSurprise` (`surprises.ts`). -/
def makeSurprise (ctx : MkCtx) (type : SurpriseType) (title content : String)
    (relatedMemoryIds : List String) : Surprise :=
  let style := SURPRISE_STYLES type
  ⟨ctx.gid, type, title, content, relatedMemoryIds, style.1, style.2, ctx.nowIso⟩

/-- The filter of `findOnThisDay`: same calendar day and month as today, at
least 7 full days in the past. -/
def onThisDayMatches (now : JDate) (memories : List Memory) : List Memory :=
  memories.filter
    (fun m => sameDay m.createdAt now && decide (7 ≤ daysBetween m.createdAt now))

/-- `findOnThisDay` (`surprises.ts`). `pick` is the random index oracle. -/
def findOnThisDay (ctx : MkCtx) (now : JDate) (pick : Nat)
    (memories : List Memory) : Option Surprise :=
  let found := onThisDayMatches now memories
  match found with
  | [] => none
  | m0 :: _ =>
    let memory := jsPick pick found m0
    let weeksAgo := jsRoundDiv (daysBetween memory.createdAt now) 7
    let monthsAgo := jsRoundDiv weeksAgo 4
    let timeLabel :=
      if 4 ≤ weeksAgo then
        toString monthsAgo ++ " month" ++ (if 1 < monthsAgo then "s" else "") ++ " ago"
      else
        toString weeksAgo ++ " week" ++ (if 1 < weeksAgo then "s" else "") ++ " ago"
    some (makeSurprise ctx .on_this_day ("On This Day (" ++ timeLabel ++ ")")
      (jsOr memory.summary (jsSubstring memory.content 120 ++ "..."))
      [memory.id])

/-- `findForgottenGem` (`surprises.ts`). `pick` is the random index oracle. -/
def findForgottenGem (ctx : MkCtx) (now : JDate) (pick : Nat)
    (memories : List Memory) : Option Surprise :=
  if memories.length < 5 then none
  else
    let oldMemories := List.insertionSort
      (fun a b : Memory => a.createdAt.time ≤ b.createdAt.time)
      (memories.filter (fun m => decide (14 < daysBetween m.createdAt now)))
    match oldMemories with
    | [] => none
    | m0 :: _ =>
      let pool := oldMemories.take (max 1 (oldMemories.length / 3))
      let memory := jsPick pick pool m0
      some (makeSurprise ctx .forgotten_gem "Forgotten Gem"
        ("You thought about this a while back: \x22" ++
          jsSubstring (jsOr memory.summary memory.content) 100 ++
          "...\x22 - still relevant?")
        [memory.id])

/-- `findPattern` (`surprises.ts`). -/
def findPattern (ctx : MkCtx) (memories : List Memory) : Option Surprise :=
  if memories.length < 3 then none
  else
    let recentMemories := memories.take 20
    let tagCounts := recentMemories.foldl (fun acc m => m.tags.foldl bumpCount acc) []
    let topTags := List.insertionSort (fun a b : String × Nat => b.2 ≤ a.2)
      (tagCounts.filter (fun p => decide (3 ≤ p.2)))
    match topTags with
    | [] => none
    | (tag, count) :: _ =>
      let relatedIds :=
        ((recentMemories.filter (fun m => m.tags.contains tag)).take 3).map (·.id)
      some (makeSurprise ctx .pattern "Thinking Pattern"
        ("\x22" ++ tag ++ "\x22 keeps coming up in your thoughts (" ++
          toString count ++ " times recently). Seems like something important to you.")
        relatedIds)

/-- `generateNudge` (`surprises.ts`). -/
def generateNudge (ctx : MkCtx) (now : JDate) (memories : List Memory)
    (rooms : List Room) : Option Surprise :=
  if rooms.length = 0 then none
  else
    let roomActivity := rooms.map (fun room =>
      let roomMemories := memories.filter (fun m => m.roomId == some room.id)
      let lastActivity : Int :=
        match roomMemories.map (fun m => m.createdAt.time) with
        | [] => 0
        | t :: ts => ts.foldl max t
      (room, roomMemories.length, lastActivity))
    let neglected := List.insertionSort
      (fun a b : Room × Nat × Int => a.2.2 ≤ b.2.2)
      (roomActivity.filter
        (fun r => decide (0 < r.2.1) && decide (7 < daysBetween (msDate r.2.2) now)))
    match neglected with
    | [] => none
    | (room, memoryCount, lastActivity) :: _ =>
      let daysAgo := daysBetween (msDate lastActivity) now
      some (makeSurprise ctx .nudge "Missing You"
        ("Your \x22" ++ room.name ++ "\x22 room has " ++ toString memoryCount ++
          " memories but hasn\x27t seen you in " ++ toString daysAgo ++
          " days. Any new thoughts?")
        [])

/-- `generateMashup` (`surprises.ts`). `shuffled` is the oracle outcome of
`[...memories].sort(() => Math.random() - 0.5)`; theorems constrain it to a
permutation of `memories`. The `none` fallthroughs are unreachable for
permutations of ≥ 4 memories (the source would fault there). -/
def generateMashup (ctx : MkCtx) (shuffled : List Memory)
    (memories : List Memory) : Option Surprise :=
  if memories.length < 4 then none
  else
    match shuffled with
    | [] => none
    | m1 :: rest =>
      let found := shuffled.find? (fun m =>
        m.id != m1.id && m.roomId != m1.roomId &&
          !(m.tags.any (fun t => m1.tags.contains t)))
      let m2? := match found with
        | some m => some m
        | none => rest.head?
      match m2? with
      | none => none
      | some m2 =>
        let topic1 := jsOr m1.tags.head? "idea"
        let topic2 := jsOr m2.tags.head? "thought"
        some (makeSurprise ctx .mashup "Idea Mashup"
          ("What if you combined \x22" ++ topic1 ++ "\x22 with \x22" ++ topic2 ++
            "\x22? Sometimes the best ideas come from unexpected connections.")
          [m1.id, m2.id])

/-- `generateQuestion` (`surprises.ts`). `qPick` chooses the template;
`tPick0`, `tPick3`, `tPick5` are the three independent `pickRandom` draws the
source makes while building the template array. -/
def generateQuestion (ctx : MkCtx) (qPick tPick0 tPick3 tPick5 : Nat)
    (memories : List Memory) : Option Surprise :=
  if memories.length = 0 then none
  else
    let recentTags := distinctFirst ((memories.take 10).foldl (fun acc m => acc ++ m.tags) [])
    let questions := [
      "What\x27s one thing about " ++ jsOr (pickRandom tPick0 recentTags) "your recent thinking" ++
        " that you haven\x27t explored yet?",
      "If you could only keep 3 of your recent ideas, which would they be?",
      "What would your past self from a month ago think about your current focus?",
      "Is there someone you should share your \x22" ++ jsOr (pickRandom tPick3 recentTags) "latest" ++
        "\x22 thoughts with?",
      "What\x27s the boldest next step you could take on your recent ideas?",
      "What assumption are you making about \x22" ++ jsOr (pickRandom tPick5 recentTags) "things" ++
        "\x22 that might be wrong?",
      "If you had unlimited resources, how would you act on your recent thoughts?"]
    let question := jsPick qPick questions ""
    some (makeSurprise ctx .question "Think About This" question
      ((memories.take 2).map (·.id)))

/-- `generateAIConnection` (`surprises.ts`): throws iff `AIService.chat`
throws (modelled by `chat = .error e`). `shuffled` is the shuffle oracle, as
in `generateMashup`. -/
def generateAIConnection (ctx : MkCtx) (shuffled : List Memory)
    (chat : Except String String) (memories : List Memory) :
    Except String (Option Surprise) :=
  if memories.length < 3 then .ok none
  else
    match shuffled with
    | [] => .ok none
    | m1 :: rest =>
      let m2? := match shuffled.find? (fun m =>
          m.id != m1.id && !(m.tags.any (fun t => m1.tags.contains t))) with
        | some m => some m
        | none => rest.head?
      match m2? with
      | none => .ok none
      | some m2 =>
        match chat with
        | .error e => .error e
        | .ok response =>
          .ok (some (makeSurprise ctx .connection "Hidden Connection"
            (jsSubstring response 200) [m1.id, m2.id]))

/-- `generateAIIdeaSpark` (`surprises.ts`): throws iff `AIService.chat`
throws. -/
def generateAIIdeaSpark (ctx : MkCtx) (chat : Except String String)
    (memories : List Memory) : Except String (Option Surprise) :=
  if memories.length < 2 then .ok none
  else
    let recentTopics :=
      (distinctFirst ((memories.take 10).foldl (fun acc m => acc ++ m.tags) [])).take 5
    if recentTopics.length = 0 then .ok none
    else
      match chat with
      | .error e => .error e
      | .ok response =>
        .ok (some (makeSurprise ctx .idea_spark "Idea Spark"
          (jsSubstring response 200) ((memories.take 2).map (·.id))))

/-- `generateRandomEncouragement` (`surprises.ts`): the non-empty-batch
fallback, always of kind `idea_spark`. -/
def generateRandomEncouragement (ctx : MkCtx) (pick : Nat)
    (memories : List Memory) : Surprise :=
  let count := memories.length
  let messages := [
    "You\x27ve captured " ++ toString count ++
      " memories so far. Each one is a piece of your thinking. Keep going!",
    "Your memory palace is growing. The more you add, the more surprising connections I can find.",
    "Talk to me about what\x27s on your mind - I\x27ll remember it and surprise you with insights later."]
  makeSurprise ctx .idea_spark "Keep Talking" (jsPick pick messages "") []

/-- `generateWelcomeSurprise` (`surprises.ts`): the fixed empty-collection
insight, of kind `idea_spark`. -/
def generateWelcomeSurprise (ctx : MkCtx) : Surprise :=
  makeSurprise ctx .idea_spark "Welcome to Your Memory Palace"
    "Start by talking to me about anything - an idea, a thought, a dream. I\x27ll remember everything and surprise you with connections you never expected."
    []

/-- The outcome of invoking one generator thunk: a thrown error, nothing
found, or one surprise. -/
abbrev GenOutcome := Except String (Option Surprise)

/-- All environment-supplied values consumed during one `generateSurprises`
call: `makeSurprise` context, today's date, every random draw, the two shuffle
outcomes, the generator-list shuffle, and the two gateway call outcomes. -/
structure Oracle where
  ctx : MkCtx
  now : JDate
  onThisDayPick : Nat
  gemPick : Nat
  qPick : Nat
  qTag0 : Nat
  qTag3 : Nat
  qTag5 : Nat
  encouragePick : Nat
  mashupShuffle : List Memory → List Memory
  connShuffle : List Memory → List Memory
  shuffleGens : List GenOutcome → List GenOutcome
  connChat : Except String String
  sparkChat : Except String String

/-- The six rule-based generator outcomes, in declaration order. -/
def ruleGenerators (o : Oracle) (memories : List Memory) (rooms : List Room) :
    List GenOutcome :=
  [.ok (findOnThisDay o.ctx o.now o.onThisDayPick memories),
   .ok (findForgottenGem o.ctx o.now o.gemPick memories),
   .ok (findPattern o.ctx memories),
   .ok (generateNudge o.ctx o.now memories rooms),
   .ok (generateMashup o.ctx (o.mashupShuffle memories) memories),
   .ok (generateQuestion o.ctx o.qPick o.qTag0 o.qTag3 o.qTag5 memories)]

/-- The two AI-assisted generator outcomes, in declaration order. -/
def aiGenerators (o : Oracle) (memories : List Memory) : List GenOutcome :=
  [generateAIConnection o.ctx (o.connShuffle memories) o.connChat memories,
   generateAIIdeaSpark o.ctx o.sparkChat memories]

/-- The candidate generator list of `generateSurprises`: the six rule-based
generators always, the two AI generators appended only when
`AIService.isConfigured()`. -/
def candidateGenerators (o : Oracle) (configured : Bool)
    (memories : List Memory) (rooms : List Room) : List GenOutcome :=
  ruleGenerators o memories rooms ++ (if configured then aiGenerators o memories else [])

/-- The collection loop of `generateSurprises`: stop once `count` surprises
are collected; a thrown error is caught and skipped; a `null` result is
skipped; a surprise is appended. -/
def runGens (count : Int) (acc : List Surprise) : List GenOutcome → List Surprise
  | [] => acc
  | g :: rest =>
    if count ≤ (acc.length : Int) then acc
    else
      match g with
      | .error _ => runGens count acc rest
      | .ok none => runGens count acc rest
      | .ok (some s) => runGens count (acc ++ [s]) rest

/-- `SurpriseEngine.generateSurprises`: the welcome short-circuit for an empty
collection, the shuffled generator loop, and the encouragement fallback for an
empty batch. -/
def generateSurprises (o : Oracle) (configured : Bool) (memories : List Memory)
    (rooms : List Room) (count : Int) : List Surprise :=
  if memories.length = 0 then [generateWelcomeSurprise o.ctx]
  else
    let shuffled := o.shuffleGens (candidateGenerators o configured memories rooms)
    let surprises := runGens count [] shuffled
    if surprises.length = 0 then
      surprises ++ [generateRandomEncouragement o.ctx o.encouragePick memories]
    else surprises

/-- `saveAsMemory`'s resolution of the suggested room name against existing
rooms: case-insensitive substring containment, first match wins. -/
def resolveRoomId (rooms : List Room) (suggestedRoom : Option String) :
    Option String :=
  match suggestedRoom with
  | none => none
  | some s =>
    (rooms.find? (fun r => jsIncludes (lowerStr r.name) (lowerStr s))).map (·.id)

/-- An oracle whose shuffles are the identity permutation and whose random
draws are all 0; used to evaluate the engine at concrete inputs. -/
def idOracle : Oracle where
  ctx := ⟨"id0", "2026-01-01T00:00:00.000Z"⟩
  now := ⟨46 * 86400000, 16, 1⟩
  onThisDayPick := 0
  gemPick := 0
  qPick := 0
  qTag0 := 0
  qTag3 := 0
  qTag5 := 0
  encouragePick := 0
  mashupShuffle := id
  connShuffle := id
  shuffleGens := id
  connChat := .ok "chat response"
  sparkChat := .ok "chat response"

/-- A fallback `Surprise` used only to name elements of concretely computed
batches in closed statements. -/
def defaultSurprise : Surprise :=
  makeSurprise ⟨"", ""⟩ .question "" "" []

/-- A concrete sample memory: created 2 days before `idOracle.now`, on a
different calendar day. -/
def mem1 : Memory :=
  ⟨"m1", "thinking about gardening and compost quality", none, .text,
   ["gardening"], [], none, ⟨44 * 86400000, 14, 1⟩, "2026-01-15", "u1"⟩

/-- A second sample memory, in no room and with distinct tags. -/
def mem2 : Memory :=
  ⟨"m2", "notes from the pottery class about glazes", none, .voice,
   ["pottery"], [], none, ⟨20 * 86400000, 21, 0⟩, "2026-01-21", "u1"⟩

/-- A third sample memory. -/
def mem3 : Memory :=
  ⟨"m3", "a business plan sketch for the bakery", none, .conversation,
   ["bakery"], [], some "r1", ⟨10 * 86400000, 11, 0⟩, "2026-01-11", "u1"⟩

/-- A fourth sample memory. -/
def mem4 : Memory :=
  ⟨"m4", "travel ideas for the spring trip", none, .text,
   ["travel"], [], some "r2", ⟨5 * 86400000, 6, 0⟩, "2026-01-06", "u1"⟩

/-- The four sample memories, with pairwise distinct ids. -/
def mems4 : List Memory :=
  [mem1, mem2, mem3, mem4]

/-- A concrete "today" for date-rule witnesses: 400 days after the epoch of
the samples, on the 5th of March (month index 2). -/
def nowD : JDate :=
  ⟨400 * 86400000, 5, 2⟩

/-- A memory created 400 days before `nowD` on the same day-of-month and
month. -/
def mem400 : Memory :=
  ⟨"m400", "anniversary note about the garden", none, .text, [], [], none,
   ⟨0, 5, 2⟩, "2025-03-05", "u1"⟩

/-- A memory created exactly 3 days before `nowD`, sharing its day-of-month
and month fields. -/
def mem3d : Memory :=
  ⟨"m3d", "a very recent note", none, .text, [], [], none,
   ⟨397 * 86400000, 5, 2⟩, "2026-04-06", "u1"⟩

theorem jsPick_mem {l : List α} (k : Nat) (d : α) (h : l ≠ []) :
    jsPick k l d ∈ l := by
  have hlen : 0 < l.length := List.length_pos.mpr h
  have hlt : k % l.length < l.length := Nat.mod_lt _ hlen
  rw [jsPick, List.getD_eq_getElem l d hlt]
  exact List.getElem_mem hlt

theorem runGens_nil {count : Int} {acc : List Surprise} :
    runGens count acc [] = acc := rfl

theorem runGens_cons {count : Int} {acc : List Surprise} {g : GenOutcome}
    {rest : List GenOutcome} :
    runGens count acc (g :: rest) =
      if count ≤ (acc.length : Int) then acc
      else
        match g with
        | .error _ => runGens count acc rest
        | .ok none => runGens count acc rest
        | .ok (some s) => runGens count (acc ++ [s]) rest := rfl

theorem runGens_stop {count : Int} {acc : List Surprise} (l : List GenOutcome)
    (h : count ≤ (acc.length : Int)) : runGens count acc l = acc := by
  cases l with
  | nil => rfl
  | cons g rest => simp [runGens_cons, h]

theorem mem_runGens {count : Int} {l : List GenOutcome} {acc : List Surprise}
    {s : Surprise} (h : s ∈ runGens count acc l) :
    s ∈ acc ∨ Except.ok (some s) ∈ l := by
  induction l generalizing acc with
  | nil => exact Or.inl h
  | cons g rest ih =>
    rw [runGens_cons] at h
    by_cases hc : count ≤ (acc.length : Int)
    · rw [if_pos hc] at h
      exact Or.inl h
    · rw [if_neg hc] at h
      match g with
      | .error e =>
        rcases ih h with h' | h'
        · exact Or.inl h'
        · exact Or.inr (List.mem_cons_of_mem _ h')
      | .ok none =>
        rcases ih h with h' | h'
        · exact Or.inl h'
        · exact Or.inr (List.mem_cons_of_mem _ h')
      | .ok (some s') =>
        rcases ih h with h' | h'
        · rcases List.mem_append.mp h' with h'' | h''
          · exact Or.inl h''
          · rw [List.mem_singleton.mp h'']
            exact Or.inr (List.mem_cons_self _ _)
        · exact Or.inr (List.mem_cons_of_mem _ h')

theorem runGens_length_le {count : Int} {l : List GenOutcome}
    {acc : List Surprise} (h : (acc.length : Int) ≤ count) :
    ((runGens count acc l).length : Int) ≤ count := by
  induction l generalizing acc with
  | nil => exact h
  | cons g rest ih =>
    rw [runGens_cons]
    by_cases hc : count ≤ (acc.length : Int)
    · rw [if_pos hc]
      exact h
    · rw [if_neg hc]
      match g with
      | .error e => exact ih h
      | .ok none => exact ih h
      | .ok (some s') =>
        apply ih
        simp only [List.length_append, List.length_cons, List.length_nil]
        push_cast
        omega

theorem runGens_eq_nil {count : Int} {l : List GenOutcome}
    {acc : List Surprise} (h : runGens count acc l = []) :
    acc = [] ∧ (count ≤ 0 ∨ ∀ s, Except.ok (some s) ∉ l) := by
  induction l generalizing acc with
  | nil =>
    refine ⟨h, Or.inr ?_⟩
    intro s hs
    simp at hs
  | cons g rest ih =>
    rw [runGens_cons] at h
    by_cases hc : count ≤ (acc.length : Int)
    · rw [if_pos hc] at h
      refine ⟨h, Or.inl ?_⟩
      subst h
      simpa using hc
    · rw [if_neg hc] at h
      match g with
      | .error e =>
        obtain ⟨hacc, hrest⟩ := ih h
        refine ⟨hacc, ?_⟩
        rcases hrest with h' | h'
        · exact Or.inl h'
        · refine Or.inr fun s hs => ?_
          rcases List.mem_cons.mp hs with h'' | h''
          · exact Except.noConfusion h''
          · exact h' s h''
      | .ok none =>
        obtain ⟨hacc, hrest⟩ := ih h
        refine ⟨hacc, ?_⟩
        rcases hrest with h' | h'
        · exact Or.inl h'
        · refine Or.inr fun s hs => ?_
          rcases List.mem_cons.mp hs with h'' | h''
          · simp at h''
          · exact h' s h''
      | .ok (some s') =>
        obtain ⟨hacc, _⟩ := ih h
        simp at hacc

theorem findOnThisDay_eq_some {ctx : MkCtx} {now : JDate} {pick : Nat}
    {memories : List Memory} {s : Surprise}
    (h : findOnThisDay ctx now pick memories = some s) :
    s.type = .on_this_day ∧
      ∃ m, m ∈ onThisDayMatches now memories ∧ s.relatedMemoryIds = [m.id] := by
  simp only [findOnThisDay] at h
  split at h
  · exact absurd h (by simp)
  · rename_i m0 tail heq
    rw [Option.some.injEq] at h
    subst h
    refine ⟨rfl, jsPick pick (onThisDayMatches now memories) m0, ?_, rfl⟩
    exact jsPick_mem _ _ (by rw [heq]; simp)

theorem findForgottenGem_eq_some {ctx : MkCtx} {now : JDate} {pick : Nat}
    {memories : List Memory} {s : Surprise}
    (h : findForgottenGem ctx now pick memories = some s) :
    s.type = .forgotten_gem ∧ ∃ m, m ∈ memories ∧ s.relatedMemoryIds = [m.id] := by
  simp only [findForgottenGem] at h
  split at h
  · exact absurd h (by simp)
  · split at h
    · exact absurd h (by simp)
    · rename_i m0 tail heq
      rw [Option.some.injEq] at h
      subst h
      set oldL := List.insertionSort (fun a b : Memory => a.createdAt.time ≤ b.createdAt.time)
        (memories.filter (fun m => decide (14 < daysBetween m.createdAt now))) with hold
      set pool := oldL.take (max 1 (oldL.length / 3)) with hpooldef
      have hpool : pool ≠ [] := by
        rw [hpooldef, heq]
        obtain ⟨j, hj⟩ : ∃ j, max 1 ((m0 :: tail).length / 3) = j + 1 :=
          ⟨max 1 ((m0 :: tail).length / 3) - 1, by omega⟩
        rw [hj]
        simp
      refine ⟨rfl, jsPick pick pool m0, ?_, rfl⟩
      have hmem : jsPick pick pool m0 ∈ pool := jsPick_mem _ _ hpool
      have hmem2 : jsPick pick pool m0 ∈ oldL := List.mem_of_mem_take hmem
      rw [hold, List.mem_insertionSort] at hmem2
      exact (List.mem_filter.mp hmem2).1

theorem findPattern_eq_some {ctx : MkCtx} {memories : List Memory} {s : Surprise}
    (h : findPattern ctx memories = some s) :
    s.type = .pattern ∧ ∀ mid ∈ s.relatedMemoryIds, mid ∈ memories.map Memory.id := by
  simp only [findPattern] at h
  split at h
  · exact absurd h (by simp)
  · split at h
    · exact absurd h (by simp)
    · rw [Option.some.injEq] at h
      subst h
      refine ⟨rfl, ?_⟩
      intro mid hmid
      simp only [makeSurprise] at hmid
      rw [List.mem_map] at hmid
      obtain ⟨m, hm, rfl⟩ := hmid
      have hm2 : m ∈ memories.take 20 :=
        (List.mem_filter.mp (List.mem_of_mem_take hm)).1
      exact List.mem_map_of_mem _ (List.mem_of_mem_take hm2)

theorem generateNudge_eq_some {ctx : MkCtx} {now : JDate} {memories : List Memory}
    {rooms : List Room} {s : Surprise}
    (h : generateNudge ctx now memories rooms = some s) :
    s.type = .nudge ∧ s.relatedMemoryIds = [] := by
  simp only [generateNudge] at h
  split at h
  · exact absurd h (by simp)
  · split at h
    · exact absurd h (by simp)
    · rw [Option.some.injEq] at h
      subst h
      exact ⟨rfl, rfl⟩

theorem generateMashup_eq_some {ctx : MkCtx} {shuffled memories : List Memory}
    {s : Surprise} (h : generateMashup ctx shuffled memories = some s) :
    s.type = .mashup ∧
      ∃ m1 m2, m1 ∈ shuffled ∧ m2 ∈ shuffled ∧
        s.relatedMemoryIds = [m1.id, m2.id] ∧
        ((shuffled.map Memory.id).Nodup → m1.id ≠ m2.id) := by
  simp only [generateMashup] at h
  split at h
  · exact absurd h (by simp)
  · split at h
    · exact absurd h (by simp)
    · rename_i m1 rest
      split at h
      · exact absurd h (by simp)
      · rename_i m2 hm2
        rw [Option.some.injEq] at h
        subst h
        refine ⟨rfl, m1, m2, List.mem_cons_self _ _, ?_, rfl, ?_⟩
        · rcases hfind : (m1 :: rest).find? (fun m =>
              m.id != m1.id && m.roomId != m1.roomId &&
                !(m.tags.any (fun t => m1.tags.contains t))) with _ | m
          · rw [hfind] at hm2
            cases rest with
            | nil => exact absurd hm2 (by simp)
            | cons b tl =>
              simp only [List.head?] at hm2
              rw [Option.some.injEq] at hm2
              subst hm2
              exact List.mem_cons_of_mem _ (List.mem_cons_self _ _)
          · rw [hfind] at hm2
            rw [Option.some.injEq] at hm2
            subst hm2
            exact List.mem_of_find?_eq_some hfind
        · intro hnd
          rcases hfind : (m1 :: rest).find? (fun m =>
              m.id != m1.id && m.roomId != m1.roomId &&
                !(m.tags.any (fun t => m1.tags.contains t))) with _ | m
          · rw [hfind] at hm2
            cases rest with
            | nil => exact absurd hm2 (by simp)
            | cons b tl =>
              simp only [List.head?] at hm2
              rw [Option.some.injEq] at hm2
              subst hm2
              simp only [List.map, List.nodup_cons, List.mem_cons] at hnd
              intro hid
              exact hnd.1 (Or.inl hid)
          · rw [hfind] at hm2
            rw [Option.some.injEq] at hm2
            subst hm2
            have hp := List.find?_some hfind
            simp only [Bool.and_eq_true, bne_iff_ne] at hp
            exact fun hid => hp.1.1 hid.symm

theorem generateQuestion_eq_some {ctx : MkCtx} {qPick tPick0 tPick3 tPick5 : Nat}
    {memories : List Memory} {s : Surprise}
    (h : generateQuestion ctx qPick tPick0 tPick3 tPick5 memories = some s) :
    s.type = .question ∧ ∀ mid ∈ s.relatedMemoryIds, mid ∈ memories.map Memory.id := by
  simp only [generateQuestion] at h
  split at h
  · exact absurd h (by simp)
  · rw [Option.some.injEq] at h
    subst h
    refine ⟨rfl, ?_⟩
    intro mid hmid
    simp only [makeSurprise] at hmid
    rw [List.mem_map] at hmid
    obtain ⟨m, hm, rfl⟩ := hmid
    exact List.mem_map_of_mem _ (List.mem_of_mem_take hm)

theorem generateQuestion_isSome (ctx : MkCtx) (qPick tPick0 tPick3 tPick5 : Nat)
    {memories : List Memory} (h : memories ≠ []) :
    ∃ q, generateQuestion ctx qPick tPick0 tPick3 tPick5 memories = some q := by
  simp only [generateQuestion]
  rw [if_neg (fun hc => h (List.length_eq_zero.mp hc))]
  exact ⟨_, rfl⟩

theorem generateAIConnection_eq_ok_some {ctx : MkCtx} {shuffled memories : List Memory}
    {chat : Except String String} {s : Surprise}
    (h : generateAIConnection ctx shuffled chat memories = .ok (some s)) :
    s.type = .connection ∧
      ∃ m1 m2, m1 ∈ shuffled ∧ m2 ∈ shuffled ∧
        s.relatedMemoryIds = [m1.id, m2.id] ∧
        ((shuffled.map Memory.id).Nodup → m1.id ≠ m2.id) := by
  simp only [generateAIConnection] at h
  split at h
  · exact absurd h (by simp)
  · split at h
    · exact absurd h (by simp)
    · rename_i m1 rest
      split at h
      · exact absurd h (by simp)
      · rename_i m2 hm2
        split at h
        · exact absurd h (by simp)
        · rename_i response
          simp only [Except.ok.injEq, Option.some.injEq] at h
          subst h
          refine ⟨rfl, m1, m2, List.mem_cons_self _ _, ?_, rfl, ?_⟩
          · rcases hfind : (m1 :: rest).find? (fun m =>
                m.id != m1.id && !(m.tags.any (fun t => m1.tags.contains t))) with _ | m
            · rw [hfind] at hm2
              cases rest with
              | nil => exact absurd hm2 (by simp)
              | cons b tl =>
                simp only [List.head?] at hm2
                rw [Option.some.injEq] at hm2
                subst hm2
                exact List.mem_cons_of_mem _ (List.mem_cons_self _ _)
            · rw [hfind] at hm2
              rw [Option.some.injEq] at hm2
              subst hm2
              exact List.mem_of_find?_eq_some hfind
          · intro hnd
            rcases hfind : (m1 :: rest).find? (fun m =>
                m.id != m1.id && !(m.tags.any (fun t => m1.tags.contains t))) with _ | m
            · rw [hfind] at hm2
              cases rest with
              | nil => exact absurd hm2 (by simp)
              | cons b tl =>
                simp only [List.head?] at hm2
                rw [Option.some.injEq] at hm2
                subst hm2
                simp only [List.map, List.nodup_cons, List.mem_cons] at hnd
                intro hid
                exact hnd.1 (Or.inl hid)
            · rw [hfind] at hm2
              rw [Option.some.injEq] at hm2
              subst hm2
              have hp := List.find?_some hfind
              simp only [Bool.and_eq_true, bne_iff_ne] at hp
              exact fun hid => hp.1 hid.symm

theorem generateAIIdeaSpark_eq_ok_some {ctx : MkCtx} {chat : Except String String}
    {memories : List Memory} {s : Surprise}
    (h : generateAIIdeaSpark ctx chat memories = .ok (some s)) :
    s.type = .idea_spark ∧ ∀ mid ∈ s.relatedMemoryIds, mid ∈ memories.map Memory.id := by
  simp only [generateAIIdeaSpark] at h
  split at h
  · exact absurd h (by simp)
  · split at h
    · exact absurd h (by simp)
    · split at h
      · exact absurd h (by simp)
      · simp only [Except.ok.injEq, Option.some.injEq] at h
        subst h
        refine ⟨rfl, ?_⟩
        intro mid hmid
        simp only [makeSurprise] at hmid
        rw [List.mem_map] at hmid
        obtain ⟨m, hm, rfl⟩ := hmid
        exact List.mem_map_of_mem _ (List.mem_of_mem_take hm)

theorem mem_candidateGenerators_false {o : Oracle} {memories : List Memory}
    {rooms : List Room} {g : GenOutcome}
    (h : g ∈ candidateGenerators o false memories rooms) :
    g = .ok (findOnThisDay o.ctx o.now o.onThisDayPick memories) ∨
    g = .ok (findForgottenGem o.ctx o.now o.gemPick memories) ∨
    g = .ok (findPattern o.ctx memories) ∨
    g = .ok (generateNudge o.ctx o.now memories rooms) ∨
    g = .ok (generateMashup o.ctx (o.mashupShuffle memories) memories) ∨
    g = .ok (generateQuestion o.ctx o.qPick o.qTag0 o.qTag3 o.qTag5 memories) := by
  simp only [candidateGenerators, ruleGenerators, aiGenerators, if_neg,
    Bool.false_eq_true, if_false, List.append_nil, List.mem_cons,
    List.not_mem_nil, or_false] at h
  tauto

theorem mem_candidateGenerators {o : Oracle} {configured : Bool}
    {memories : List Memory} {rooms : List Room} {g : GenOutcome}
    (h : g ∈ candidateGenerators o configured memories rooms) :
    g = .ok (findOnThisDay o.ctx o.now o.onThisDayPick memories) ∨
    g = .ok (findForgottenGem o.ctx o.now o.gemPick memories) ∨
    g = .ok (findPattern o.ctx memories) ∨
    g = .ok (generateNudge o.ctx o.now memories rooms) ∨
    g = .ok (generateMashup o.ctx (o.mashupShuffle memories) memories) ∨
    g = .ok (generateQuestion o.ctx o.qPick o.qTag0 o.qTag3 o.qTag5 memories) ∨
    g = generateAIConnection o.ctx (o.connShuffle memories) o.connChat memories ∨
    g = generateAIIdeaSpark o.ctx o.sparkChat memories := by
  cases configured with
  | false =>
    rcases mem_candidateGenerators_false h with h | h | h | h | h | h <;> tauto
  | true =>
    simp only [candidateGenerators, ruleGenerators, aiGenerators, if_pos,
      List.mem_append, List.mem_cons, List.not_mem_nil, or_false] at h
    tauto

/-- C5: `generateSurprises` never lets a thrown generator error escape: in the
collection loop `runGens`, a generator outcome that is a thrown error is
caught, contributes nothing, and iteration continues with the next shuffled
generator, so the batch is exactly the one computed without the failing
generator. -/
theorem runGens_error_isolated (count : Int) (acc : List Surprise)
    (l1 l2 : List GenOutcome) (e : String) :
    runGens count acc (l1 ++ Except.error e :: l2) = runGens count acc (l1 ++ l2) := by
  induction l1 generalizing acc with
  | nil =>
    simp only [List.nil_append]
    rw [runGens_cons]
    by_cases hc : count ≤ (acc.length : Int)
    · rw [if_pos hc, runGens_stop _ hc]
    · rw [if_neg hc]
  | cons g rest ih =>
    simp only [List.cons_append]
    rw [runGens_cons, runGens_cons]
    by_cases hc : count ≤ (acc.length : Int)
    · rw [if_pos hc, if_pos hc]
    · rw [if_neg hc, if_neg hc]
      match g with
      | .error e' => exact ih _
      | .ok none => exact ih _
      | .ok (some s) => exact ih _

/-- C9: the `on_this_day` eligibility rule requires the full date to be at
least 7 days in the past: a memory 3 days old is never in the candidate pool
(even sharing today's day-of-month), a memory 400 days old sharing today's
day-of-month and month is in the pool, and `findOnThisDay` only ever selects
from the pool (all of whose members are ≥ 7 days old). -/
theorem onThisDay_date_rule (memories : List Memory) (now : JDate) (m : Memory)
    (ctx : MkCtx) (k : Nat) :
    (daysBetween m.createdAt now = 3 → m ∉ onThisDayMatches now memories) ∧
    (m ∈ memories → sameDay m.createdAt now = true →
      daysBetween m.createdAt now = 400 → m ∈ onThisDayMatches now memories) ∧
    (∀ s, findOnThisDay ctx now k memories = some s →
      ∃ m', m' ∈ onThisDayMatches now memories ∧ s.relatedMemoryIds = [m'.id] ∧
        7 ≤ daysBetween m'.createdAt now) := by
  refine ⟨?_, ?_, ?_⟩
  · intro h3 hmem
    rw [onThisDayMatches, List.mem_filter] at hmem
    have h2 := hmem.2
    simp only [Bool.and_eq_true, decide_eq_true_eq] at h2
    omega
  · intro hmem hsame h400
    rw [onThisDayMatches, List.mem_filter]
    refine ⟨hmem, ?_⟩
    simp only [Bool.and_eq_true, decide_eq_true_eq]
    exact ⟨hsame, by omega⟩
  · intro s hs
    obtain ⟨-, m', hm', hrel⟩ := findOnThisDay_eq_some hs
    refine ⟨m', hm', hrel, ?_⟩
    have h2 := (List.mem_filter.mp (by rwa [onThisDayMatches] at hm')).2
    simp only [Bool.and_eq_true, decide_eq_true_eq] at h2
    exact h2.2

/-- C10: over a memory collection with pairwise-distinct ids, any insight
produced by the `mashup` or AI `connection` generator carries exactly two
related memory ids and they are distinct: the `shuffled[1]` fallback can never
pair the anchor with itself. -/
theorem mashup_connection_distinct_pair (ctx : MkCtx)
    (shuffled memories : List Memory) (chat : Except String String)
    (hnd : (memories.map Memory.id).Nodup) (hperm : shuffled.Perm memories) :
    (∀ s, generateMashup ctx shuffled memories = some s →
      s.relatedMemoryIds.length = 2 ∧ s.relatedMemoryIds.Nodup) ∧
    (∀ s, generateAIConnection ctx shuffled chat memories = .ok (some s) →
      s.relatedMemoryIds.length = 2 ∧ s.relatedMemoryIds.Nodup) := by
  have hnd' : (shuffled.map Memory.id).Nodup := ((hperm.map Memory.id).nodup_iff).mpr hnd
  constructor
  · intro s hs
    obtain ⟨-, m1, m2, -, -, hrel, hdist⟩ := generateMashup_eq_some hs
    rw [hrel]
    exact ⟨rfl, by simp [hdist hnd']⟩
  · intro s hs
    obtain ⟨-, m1, m2, -, -, hrel, hdist⟩ := generateAIConnection_eq_ok_some hs
    rw [hrel]
    exact ⟨rfl, by simp [hdist hnd']⟩

/-- C1 (amended): for an empty memory collection, `generateSurprises` returns
exactly the one fixed welcome insight — whose kind is `idea_spark` (the kind
enumeration has no `welcome` member) and whose title is
"Welcome to Your Memory Palace", with no related memories — regardless of the
configured flag, rooms, `count`, and every generator/randomness oracle. -/
theorem generateSurprises_empty_input (o : Oracle) (configured : Bool)
    (rooms : List Room) (count : Int) :
    generateSurprises o configured [] rooms count = [generateWelcomeSurprise o.ctx] ∧
    (generateWelcomeSurprise o.ctx).type = .idea_spark ∧
    (generateWelcomeSurprise o.ctx).title = "Welcome to Your Memory Palace" ∧
    (generateWelcomeSurprise o.ctx).relatedMemoryIds = [] :=
  ⟨rfl, rfl, rfl, rfl⟩

/-- C2 (amended): for every non-empty memory collection, any room collection,
any oracle (hence any generator/randomness behaviour), and any `count ≥ 1`,
the batch returned by `generateSurprises` has length ≥ 1 and ≤ `count`. -/
theorem generateSurprises_length_bounds (o : Oracle) (configured : Bool)
    (memories : List Memory) (rooms : List Room) (count : Int)
    (hne : memories ≠ []) (hcount : 1 ≤ count) :
    1 ≤ (generateSurprises o configured memories rooms count).length ∧
    ((generateSurprises o configured memories rooms count).length : Int) ≤ count := by
  simp only [generateSurprises]
  rw [if_neg (fun hc => hne (List.length_eq_zero.mp hc))]
  by_cases hz :
    (runGens count []
      (o.shuffleGens (candidateGenerators o configured memories rooms))).length = 0
  · rw [if_pos hz]
    rw [List.length_append, hz]
    simp only [List.length_singleton]
    exact ⟨le_refl 1, by exact_mod_cast hcount⟩
  · rw [if_neg hz]
    refine ⟨by omega, ?_⟩
    exact runGens_length_le (by simp; omega)

/-- C3 (amended): when the gateway is not configured, the memory collection is
non-empty and `count ≥ 1`, no insight in the returned batch has kind
`connection` or `idea_spark` (for every randomness outcome). The amendment
excludes the empty collection and `count ≤ 0`, whose fixed welcome and
encouragement fallbacks are themselves of kind `idea_spark`. -/
theorem generateSurprises_no_ai_kinds (o : Oracle) (memories : List Memory)
    (rooms : List Room) (count : Int) (hne : memories ≠ []) (hcount : 1 ≤ count)
    (hshuf : (o.shuffleGens (candidateGenerators o false memories rooms)).Perm
      (candidateGenerators o false memories rooms)) :
    ∀ s ∈ generateSurprises o false memories rooms count,
      s.type ≠ .connection ∧ s.type ≠ .idea_spark := by
  intro s hs
  simp only [generateSurprises] at hs
  rw [if_neg (fun hc => hne (List.length_eq_zero.mp hc))] at hs
  obtain ⟨q, hq⟩ := generateQuestion_isSome o.ctx o.qPick o.qTag0 o.qTag3 o.qTag5 hne
  have hqmem : Except.ok (some q) ∈ candidateGenerators o false memories rooms := by
    simp only [candidateGenerators, ruleGenerators, List.mem_append, List.mem_cons]
    exact Or.inl (by simp [hq])
  have hrun :
      runGens count []
        (o.shuffleGens (candidateGenerators o false memories rooms)) ≠ [] := by
    intro hnil
    rcases (runGens_eq_nil hnil).2 with hc | hno
    · omega
    · exact hno q (hshuf.mem_iff.mpr hqmem)
  rw [if_neg (fun hc => hrun (List.length_eq_zero.mp hc))] at hs
  rcases mem_runGens hs with habs | hmem
  · simp at habs
  · have hcand := hshuf.mem_iff.mp hmem
    rcases mem_candidateGenerators_false hcand with h1 | h1 | h1 | h1 | h1 | h1
    · have := (findOnThisDay_eq_some (Except.ok.inj h1).symm).1
      rw [this]
      exact ⟨by simp, by simp⟩
    · have := (findForgottenGem_eq_some (Except.ok.inj h1).symm).1
      rw [this]
      exact ⟨by simp, by simp⟩
    · have := (findPattern_eq_some (Except.ok.inj h1).symm).1
      rw [this]
      exact ⟨by simp, by simp⟩
    · have := (generateNudge_eq_some (Except.ok.inj h1).symm).1
      rw [this]
      exact ⟨by simp, by simp⟩
    · have := (generateMashup_eq_some (Except.ok.inj h1).symm).1
      rw [this]
      exact ⟨by simp, by simp⟩
    · have := (generateQuestion_eq_some (Except.ok.inj h1).symm).1
      rw [this]
      exact ⟨by simp, by simp⟩

theorem candidate_related_ids_aux {o : Oracle} {configured : Bool}
    {memories : List Memory} {rooms : List Room} {s : Surprise} {mid : String}
    (hshuf : (o.shuffleGens (candidateGenerators o configured memories rooms)).Perm
      (candidateGenerators o configured memories rooms))
    (hmash : (o.mashupShuffle memories).Perm memories)
    (hconn : (o.connShuffle memories).Perm memories)
    (hmem : Except.ok (some s) ∈
      o.shuffleGens (candidateGenerators o configured memories rooms))
    (hmid : mid ∈ s.relatedMemoryIds) : mid ∈ memories.map Memory.id := by
  have hcand := hshuf.mem_iff.mp hmem
  rcases mem_candidateGenerators hcand with h1 | h1 | h1 | h1 | h1 | h1 | h1 | h1
  · obtain ⟨-, m, hm, hrel⟩ := findOnThisDay_eq_some (Except.ok.inj h1).symm
    rw [hrel, List.mem_singleton] at hmid
    subst hmid
    have : m ∈ memories := (List.mem_filter.mp (by rwa [onThisDayMatches] at hm)).1
    exact List.mem_map_of_mem _ this
  · obtain ⟨-, m, hm, hrel⟩ := findForgottenGem_eq_some (Except.ok.inj h1).symm
    rw [hrel, List.mem_singleton] at hmid
    subst hmid
    exact List.mem_map_of_mem _ hm
  · obtain ⟨-, hrel⟩ := findPattern_eq_some (Except.ok.inj h1).symm
    exact hrel mid hmid
  · obtain ⟨-, hrel⟩ := generateNudge_eq_some (Except.ok.inj h1).symm
    rw [hrel] at hmid
    simp at hmid
  · obtain ⟨-, m1, m2, hm1, hm2, hrel, -⟩ := generateMashup_eq_some (Except.ok.inj h1).symm
    rw [hrel] at hmid
    rcases List.mem_cons.mp hmid with h' | h'
    · subst h'
      exact List.mem_map_of_mem _ (hmash.mem_iff.mp hm1)
    · rw [List.mem_singleton] at h'
      subst h'
      exact List.mem_map_of_mem _ (hmash.mem_iff.mp hm2)
  · obtain ⟨-, hrel⟩ := generateQuestion_eq_some (Except.ok.inj h1).symm
    exact hrel mid hmid
  · obtain ⟨-, m1, m2, hm1, hm2, hrel, -⟩ :=
      generateAIConnection_eq_ok_some h1.symm
    rw [hrel] at hmid
    rcases List.mem_cons.mp hmid with h' | h'
    · subst h'
      exact List.mem_map_of_mem _ (hconn.mem_iff.mp hm1)
    · rw [List.mem_singleton] at h'
      subst h'
      exact List.mem_map_of_mem _ (hconn.mem_iff.mp hm2)
  · obtain ⟨-, hrel⟩ := generateAIIdeaSpark_eq_ok_some h1.symm
    exact hrel mid hmid

/-- C4: every id in the `relatedMemoryIds` of any insight returned by
`generateSurprises` is the id of a memory present in the input collection,
for every input, every oracle whose shuffles are permutations, and both
gateway configurations. -/
theorem generateSurprises_related_ids_in_input (o : Oracle) (configured : Bool)
    (memories : List Memory) (rooms : List Room) (count : Int)
    (hshuf : (o.shuffleGens (candidateGenerators o configured memories rooms)).Perm
      (candidateGenerators o configured memories rooms))
    (hmash : (o.mashupShuffle memories).Perm memories)
    (hconn : (o.connShuffle memories).Perm memories) :
    ∀ s ∈ generateSurprises o configured memories rooms count,
      ∀ mid ∈ s.relatedMemoryIds, mid ∈ memories.map Memory.id := by
  intro s hs mid hmid
  simp only [generateSurprises] at hs
  split at hs
  · rw [List.mem_singleton] at hs
    subst hs
    simp [generateWelcomeSurprise, makeSurprise] at hmid
  · split at hs
    · rcases List.mem_append.mp hs with hs' | hs'
      · rcases mem_runGens hs' with habs | hmem
        · simp at habs
        · exact candidate_related_ids_aux hshuf hmash hconn hmem hmid
      · rw [List.mem_singleton] at hs'
        subst hs'
        simp [generateRandomEncouragement, makeSurprise] at hmid
    · rcases mem_runGens hs with habs | hmem
      · simp at habs
      · exact candidate_related_ids_aux hshuf hmash hconn hmem hmid

theorem lowerChar_fixed {c : Char} (h1 : 97 ≤ c.toNat) (h2 : c.toNat ≤ 122) :
    lowerChar c = c := by
  rw [lowerChar, if_neg]
  rintro ⟨ha, hb⟩
  omega

theorem lowerStr_fixed {s : String}
    (h : ∀ c ∈ s.data, 97 ≤ c.toNat ∧ c.toNat ≤ 122) : lowerStr s = s := by
  cases s with
  | mk data =>
    rw [lowerStr]
    congr 1
    induction data with
    | nil => rfl
    | cons c cs ih =>
      rw [List.map_cons]
      have hc := h c (List.mem_cons_self _ _)
      rw [lowerChar_fixed hc.1 hc.2, ih (fun c' hc' => h c' (List.mem_cons_of_mem _ hc'))]

theorem cleanWord_clean (w : String) :
    ∀ c ∈ (cleanWord w).data, 97 ≤ c.toNat ∧ c.toNat ≤ 122 := by
  intro c hc
  rw [cleanWord] at hc
  have := (List.mem_filter.mp hc).2
  simpa using this

theorem bumpCount_keys_nodup {acc : List (String × Nat)} {t : String}
    (hnd : (acc.map Prod.fst).Nodup) :
    ((bumpCount acc t).map Prod.fst).Nodup ∧
    ∀ k ∈ (bumpCount acc t).map Prod.fst, k ∈ acc.map Prod.fst ∨ k = t := by
  induction acc with
  | nil => simp [bumpCount]
  | cons p rest ih =>
    obtain ⟨t0, c0⟩ := p
    simp only [bumpCount]
    by_cases h : t0 = t
    · rw [if_pos h]
      refine ⟨by simpa using hnd, ?_⟩
      intro k hk
      exact Or.inl (by simpa using hk)
    · rw [if_neg h]
      simp only [List.map_cons, List.nodup_cons] at hnd ⊢
      obtain ⟨hni, hnd'⟩ := hnd
      obtain ⟨ihnd, ihsub⟩ := ih hnd'
      refine ⟨⟨?_, ihnd⟩, ?_⟩
      · intro hin
        rcases ihsub t0 hin with h' | h'
        · exact hni h'
        · exact h h'
      · intro k hk
        rcases List.mem_cons.mp hk with h' | h'
        · exact Or.inl (List.mem_cons.mpr (Or.inl h'))
        · rcases ihsub k h' with h'' | h''
          · exact Or.inl (List.mem_cons.mpr (Or.inr h''))
          · exact Or.inr h''

theorem tagFold_inv (words : List String) (acc : List (String × Nat))
    (h1 : (acc.map Prod.fst).Nodup)
    (h2 : ∀ k ∈ acc.map Prod.fst, ∀ c ∈ k.data, 97 ≤ c.toNat ∧ c.toNat ≤ 122) :
    ((words.foldl
      (fun acc w =>
        let clean := cleanWord w
        if 3 < jsLen clean ∧ ¬ stopWords.contains clean then bumpCount acc clean
        else acc) acc).map Prod.fst).Nodup ∧
    ∀ k ∈ (words.foldl
      (fun acc w =>
        let clean := cleanWord w
        if 3 < jsLen clean ∧ ¬ stopWords.contains clean then bumpCount acc clean
        else acc) acc).map Prod.fst, ∀ c ∈ k.data, 97 ≤ c.toNat ∧ c.toNat ≤ 122 := by
  induction words generalizing acc with
  | nil => exact ⟨h1, h2⟩
  | cons w ws ih =>
    simp only [List.foldl_cons]
    by_cases hg : 3 < jsLen (cleanWord w) ∧ ¬ stopWords.contains (cleanWord w)
    · rw [if_pos hg]
      refine ih (bumpCount acc (cleanWord w)) (bumpCount_keys_nodup h1).1 ?_
      intro k hk
      rcases (bumpCount_keys_nodup h1).2 k hk with h' | h'
      · exact h2 k h'
      · subst h'
        exact cleanWord_clean w
    · rw [if_neg hg]
      exact ih acc h1 h2

/-- C8 (amended): the tags produced by the heuristic extraction path are
case-normalized (ASCII lowering fixes every tag) and contain no duplicates
even when compared case-insensitively, for every input text. The amendment
restricts the claim to the heuristic path: the AI path stores
gateway-provided tags unmodified (see the counterexample). -/
theorem extractBasicTags_nodup_normalized (content : String) :
    (extractBasicTags content).map lowerStr = extractBasicTags content ∧
    ((extractBasicTags content).map lowerStr).Nodup := by
  obtain ⟨hnd, hclean⟩ := tagFold_inv (splitWs (lowerStr content)) [] (by simp) (by simp)
  rw [extractBasicTags]
  set W := (splitWs (lowerStr content)).foldl
    (fun acc w =>
      let clean := cleanWord w
      if 3 < jsLen clean ∧ ¬ stopWords.contains clean then bumpCount acc clean
      else acc) [] with hW
  set sorted := List.insertionSort (fun a b : String × Nat => b.2 ≤ a.2) W with hsorted
  have hperm : sorted.Perm W := List.perm_insertionSort _ _
  have hnd2 : (sorted.map Prod.fst).Nodup := ((hperm.map Prod.fst).nodup_iff).mpr hnd
  have htake : (sorted.take 4).map Prod.fst = (sorted.map Prod.fst).take 4 :=
    List.map_take _ _ _
  have hnd3 : ((sorted.take 4).map Prod.fst).Nodup := by
    rw [htake]
    exact hnd2.sublist (List.take_sublist _ _)
  have hcleantags : ∀ k ∈ (sorted.take 4).map Prod.fst,
      ∀ c ∈ k.data, 97 ≤ c.toNat ∧ c.toNat ≤ 122 := by
    intro k hk
    rw [htake] at hk
    have : k ∈ sorted.map Prod.fst := List.mem_of_mem_take hk
    exact hclean k ((hperm.map Prod.fst).mem_iff.mp this)
  have hfix : ((sorted.take 4).map Prod.fst).map lowerStr = (sorted.take 4).map Prod.fst := by
    have h1 : ((sorted.take 4).map Prod.fst).map lowerStr =
        ((sorted.take 4).map Prod.fst).map id :=
      List.map_congr_left (fun k hk => lowerStr_fixed (hcleantags k hk))
    rw [h1, List.map_id]
  exact ⟨hfix, by rw [hfix]; exact hnd3⟩

/-- C8, counterexample to the literal claim: with the gateway configured and a
well-formed response whose tags are `["Startup", "startup"]`, the
classification call stores them unmodified — not case-normalized, and
duplicated under case-insensitive comparison. -/
theorem ai_tags_duplicate_counterexample :
    (classify true (Except.ok "resp")
      (fun _ => some ⟨["Startup", "startup"], "a summary", none⟩) "some text").tags =
      ["Startup", "startup"] ∧
    ¬ ((["Startup", "startup"].map lowerStr).Nodup) ∧
    lowerStr "Startup" ≠ "Startup" :=
  ⟨rfl, by decide, by decide⟩

/-- C6 (amended): the classification step of `saveAsMemory` never raises —
every gateway behaviour lands in one of the four exhaustive result cases
below. When the gateway is unconfigured or its completion call throws, the
result is the heuristic fallback: heuristic tags, no summary, no room. When
it is configured and returns malformed JSON, the result has empty tags
(not the heuristic tags) and a summary equal to the truncated content. A
summary string is present only on the configured, non-throwing paths. -/
theorem classify_total_fallback (chat : Except String String)
    (parse : String → Option Analysis) (content : String) :
    (classify false chat parse content = ⟨extractBasicTags content, none, none⟩) ∧
    (∀ e, chat = .error e →
      classify true chat parse content = ⟨extractBasicTags content, none, none⟩) ∧
    (∀ resp, chat = .ok resp → parse resp = none →
      classify true chat parse content =
        ⟨[], some (jsSubstring content 100 ++
          (if 100 < jsLen content then "..." else "")), none⟩) ∧
    (∀ resp a, chat = .ok resp → parse resp = some a →
      classify true chat parse content = ⟨a.tags, some a.summary, a.suggestedRoom⟩) := by
  refine ⟨rfl, ?_, ?_, ?_⟩
  · rintro e rfl
    rfl
  · rintro resp rfl hp
    simp [classify, analyzeMemory, hp]
  · rintro resp a rfl hp
    simp [classify, analyzeMemory, hp]

theorem classify_total_fallback_witness :
    classify true (Except.error "network down") (fun _ => none) "hello world everyone" =
      ⟨extractBasicTags "hello world everyone", none, none⟩ :=
  (classify_total_fallback (Except.error "network down") (fun _ => none)
    "hello world everyone").2.1 "network down" rfl

/-- C6, counterexample to the literal claim: on the unconfigured path the
result has no summary string at all, and on the configured malformed-JSON
path the tags are empty rather than the heuristic fallback tags. -/
theorem classify_claim_counterexample :
    (classify false (Except.ok "x") (fun _ => none) "hiking weekends").summary = none ∧
    (classify true (Except.ok "not json") (fun _ => none) "hiking weekends").tags = [] ∧
    extractBasicTags "hiking weekends" = ["hiking", "weekends"] :=
  ⟨rfl, by decide, by decide⟩

/-- C7 (amended): classifying "I love hiking on weekends near the lake" with
the gateway not configured yields tags exactly `["love", "hiking",
"weekends", "near"]` — "love" passes the stop-word and length filters and,
with all counts tied, first-appearance order keeps it and drops "lake" — no
summary (the heuristic path leaves the summary unset), and no suggested room
id. -/
theorem classify_scenario_c (chat : Except String String)
    (parse : String → Option Analysis) (rooms : List Room) :
    classify false chat parse "I love hiking on weekends near the lake" =
      ⟨["love", "hiking", "weekends", "near"], none, none⟩ ∧
    resolveRoomId rooms
      (classify false chat parse "I love hiking on weekends near the lake").suggestedRoom =
      none := by
  constructor
  · show ClassifyResult.mk (extractBasicTags "I love hiking on weekends near the lake")
      none none = _
    have : extractBasicTags "I love hiking on weekends near the lake" =
        ["love", "hiking", "weekends", "near"] := by decide
    rw [this]
  · rfl

/-- C7, counterexample to the literal claim: "love" is produced as a tag but
lies outside the claimed set, and the summary on this path is absent rather
than equal to the truncated content. -/
theorem scenario_c_counterexample :
    "love" ∈ extractBasicTags "I love hiking on weekends near the lake" ∧
    "love" ∉ (["hiking", "weekends", "near", "lake"] : List String) ∧
    (classify false (Except.ok "resp") (fun _ => none)
      "I love hiking on weekends near the lake").summary = none :=
  ⟨by decide, by decide, rfl⟩

/-- C1, counterexample to the literal claim: at the empty collection the
single returned insight has kind `idea_spark`, and the kind enumeration
consists of exactly the eight listed members — it has no "welcome" kind for
the insight to be of. -/
theorem empty_input_kind_is_idea_spark :
    (generateSurprises idOracle false [] [] 3).map Surprise.type =
      [SurpriseType.idea_spark] ∧
    ∀ t : SurpriseType, t = .on_this_day ∨ t = .connection ∨ t = .idea_spark ∨
      t = .forgotten_gem ∨ t = .pattern ∨ t = .nudge ∨ t = .mashup ∨ t = .question := by
  refine ⟨rfl, ?_⟩
  intro t
  cases t <;> tauto

theorem generateSurprises_length_bounds_witness :
    1 ≤ (generateSurprises idOracle false [mem1] [] 3).length ∧
    ((generateSurprises idOracle false [mem1] [] 3).length : Int) ≤ 3 :=
  generateSurprises_length_bounds idOracle false [mem1] [] 3
    (List.cons_ne_nil _ _) (by decide)

/-- C2, counterexample to the literal claim: at `count = 0` with a non-empty
collection the engine still returns one insight (the encouragement fallback),
so the batch length exceeds `count`. -/
theorem count_zero_batch_exceeds_count :
    (generateSurprises idOracle false [mem1] [] 0).length = 1 ∧
    ¬ (((generateSurprises idOracle false [mem1] [] 0).length : Int) ≤ 0) :=
  ⟨by decide, by decide⟩

theorem generateSurprises_no_ai_kinds_witness :
    ((generateSurprises idOracle false [mem1] [] 1).headD defaultSurprise).type ≠
      SurpriseType.connection ∧
    ((generateSurprises idOracle false [mem1] [] 1).headD defaultSurprise).type ≠
      SurpriseType.idea_spark :=
  generateSurprises_no_ai_kinds idOracle [mem1] [] 1 (List.cons_ne_nil _ _)
    (by decide) (List.Perm.refl _) _ (by decide)

/-- C3, counterexample to the literal claim: with the gateway not configured
and `count = 0` on a non-empty collection, the returned batch consists of the
encouragement fallback, whose kind is `idea_spark`. -/
theorem unconfigured_batch_contains_idea_spark :
    (generateSurprises idOracle false [mem1] [] 0).map Surprise.type =
      [SurpriseType.idea_spark] := by
  decide

theorem generateSurprises_related_ids_witness :
    (((generateSurprises idOracle false mems4 [] 3).headD
        defaultSurprise).relatedMemoryIds.headD "") ∈ mems4.map Memory.id :=
  generateSurprises_related_ids_in_input idOracle false mems4 [] 3
    (List.Perm.refl _) (List.Perm.refl _) (List.Perm.refl _)
    ((generateSurprises idOracle false mems4 [] 3).headD defaultSurprise)
    (by decide)
    (((generateSurprises idOracle false mems4 [] 3).headD
        defaultSurprise).relatedMemoryIds.headD "")
    (by decide)

theorem onThisDay_date_rule_witness :
    mem3d ∉ onThisDayMatches nowD [mem3d, mem400] ∧
    mem400 ∈ onThisDayMatches nowD [mem3d, mem400] :=
  ⟨(onThisDay_date_rule [mem3d, mem400] nowD mem3d ⟨"g", "t"⟩ 0).1 (by decide),
   (onThisDay_date_rule [mem3d, mem400] nowD mem400 ⟨"g", "t"⟩ 0).2.1
     (by decide) (by decide) (by decide)⟩

theorem mashup_connection_distinct_pair_witness :
    ((generateMashup ⟨"g", "t"⟩ mems4 mems4).getD defaultSurprise).relatedMemoryIds.length =
      2 ∧
    ((generateMashup ⟨"g", "t"⟩ mems4 mems4).getD defaultSurprise).relatedMemoryIds.Nodup :=
  (mashup_connection_distinct_pair ⟨"g", "t"⟩ mems4 mems4 (Except.ok "resp")
    (by decide) (List.Perm.refl _)).1 _ (by decide)
